import Mathlib

/-
Verification of the PPSSPP block-device layer (Core/FileSystems/BlockDevices.cpp).

The file shallowly embeds the three block devices (plain file, CISO, NPDRM demo)
and the format-sniffing factory.  Buffers are modelled as functions from byte
position to byte value; the underlying file is a finite read-only byte store;
the external zlib inflater, the DRM cipher and the LZRC decompressor are
oracles passed in as parameters, exactly as the source calls out to them.
Machine integers are modelled as Nat, with explicit reductions modulo 2^31,
2^32 or 2^64 at the places where the source masks or wraps.
-/

/-- A readable, seekable byte resource (the FILE* the devices own).
The function byte gives the content at each position below size. -/
structure FileRes where
  size : Nat
  byte : Nat → Nat

/-- Number of bytes an fread of want bytes at position pos actually returns:
the bytes available up to end of file (Nat subtraction gives 0 past the end). -/
def freadLen (f : FileRes) (pos want : Nat) : Nat :=
  min want (f.size - pos)

/-- The list of n bytes of the resource starting at position pos. -/
def readBytes (f : FileRes) (pos n : Nat) : List Nat :=
  (List.range n).map (fun i => f.byte (pos + i))

/-- Write the bytes of l over the buffer buf starting at position 0
(the effect of reading or decompressing into the start of a heap buffer). -/
def overlay (buf : Nat → Nat) (l : List Nat) : Nat → Nat :=
  fun i => if i < l.length then l.getD i 0 else buf i

/-- memset(out, 0, 2048): the first 2048 bytes become zero. -/
def memset0 (out : Nat → Nat) : Nat → Nat :=
  fun i => if i < 2048 then 0 else out i

/-
NPDRM table entries.

Modelled from the spec: the struct table_info is declared in BlockDevices.h,
which is not part of the given sources.  The spec describes each table entry
as 32 bytes holding (offset, size, flags, unk), read and descrambled as eight
little-endian 32-bit words p0..p7.  The field names used by the .cpp source
(offset, size, flag, unk_1c) are mapped onto the words by their byte offsets:
offset = word 0 (0x00), size = word 1 (0x04), flag = word 2 (0x08),
unk_1c = word 7 (0x1c).
-/
structure RawEntry where
  w0 : Nat
  w1 : Nat
  w2 : Nat
  w3 : Nat
  w4 : Nat
  w5 : Nat
  w6 : Nat
  w7 : Nat
deriving DecidableEq

/-- The NPDRM table descrambling transform applied to one 32-byte entry,
exactly as in the constructor loop: k0 = p0 xor p1, k1 = p1 xor p2,
k2 = p0 xor p3, k3 = p2 xor p3, then p4 ^= k3, p5 ^= k1, p6 ^= k2, p7 ^= k0.
Words p0..p3 are never modified. -/
def descrambleEntry (e : RawEntry) : RawEntry :=
  let k0 := e.w0 ^^^ e.w1
  let k1 := e.w1 ^^^ e.w2
  let k2 := e.w0 ^^^ e.w3
  let k3 := e.w2 ^^^ e.w3
  { e with w4 := e.w4 ^^^ k3, w5 := e.w5 ^^^ k1, w6 := e.w6 ^^^ k2, w7 := e.w7 ^^^ k0 }

/-- Applying the descrambling transform twice restores the raw entry:
the four key words are computed from p0..p3, which the transform never
changes, so the second application xors the very same keys back out. -/
theorem descrambleEntry_descrambleEntry (e : RawEntry) :
    descrambleEntry (descrambleEntry e) = e := by
  simp [descrambleEntry, Nat.xor_assoc, Nat.xor_self, Nat.xor_zero]

/-- Claim C2 counterexample: the claim asserts that for some table entry,
applying the descrambling transform twice does not restore the original raw
words.  No such entry exists: the transform undoes itself on every entry. -/
theorem descramble_twice_ne_impossible :
    ¬ ∃ e : RawEntry, descrambleEntry (descrambleEntry e) ≠ e := by
  rintro ⟨e, he⟩
  exact he (descrambleEntry_descrambleEntry e)

/-- Claim C2 (amended): the NPDRM table descrambling transform, mapping the
eight 32-bit words p0..p7 of an entry to
(p0, p1, p2, p3, p4^(p2^p3), p5^(p1^p2), p6^(p0^p3), p7^(p0^p1)),
is its own inverse: applying it twice restores the original raw words of
every entry. -/
theorem descramble_involution (e : RawEntry) :
    descrambleEntry (descrambleEntry e) = e :=
  descrambleEntry_descrambleEntry e

/-
CISO device (CISOFileBlockDevice).

State after construction: geometry fields parsed from the header, the index
table, the single-slot frame cache (zlibBufferFrame, zlibBuffer) and the
owned file.  The constructor sets zlibBufferFrame = numFrames, which is not
the number of any frame whose blocks are in range, so the cache starts cold.
The scratch readBuffer only carries bytes into the inflater and is not
observable, so it is not part of the state.
-/
structure CisoDev where
  frameSize : Nat
  blockShift : Nat
  indexShift : Nat
  numFrames : Nat
  numBlocks : Nat
  index : Nat → Nat
  zlibBufferFrame : Nat
  zlibBuffer : Nat → Nat
  file : FileRes

/-- The external zlib inflater.  initOk models the result of inflateInit2;
run models inflate(Z_FINISH) on the bytes handed over from the read buffer:
the Bool is whether the stream ended (status == Z_STREAM_END) and the list is
the bytes the call wrote to next_out (so total_out = length of the list). -/
structure Inflater where
  initOk : Bool
  run : List Nat → Bool × List Nat

/-- Result of one CISOFileBlockDevice::ReadBlock call: the device state after
the call, the returned Bool, the output buffer, and how many times the
inflater was invoked during the call (0 or 1). -/
structure CisoResult where
  dev : CisoDev
  ok : Bool
  out : Nat → Nat
  inflateCalls : Nat

/-- The compressed bytes fread obtains for a frame: position and length come
from adjacent index entries, each masked to its low 31 bits (u32), scaled by
2^indexShift in 64-bit arithmetic; the u64 subtraction end - pos wraps. -/
def cisoCompressedInput (d : CisoDev) (frameNumber : Nat) : List Nat :=
  let indexPos := d.index frameNumber % 2 ^ 31
  let nextIndexPos := d.index (frameNumber + 1) % 2 ^ 31
  let compressedReadPos := indexPos <<< d.indexShift % 2 ^ 64
  let compressedReadEnd := nextIndexPos <<< d.indexShift % 2 ^ 64
  let compressedReadSize := (compressedReadEnd + 2 ^ 64 - compressedReadPos) % 2 ^ 64
  readBytes d.file compressedReadPos (freadLen d.file compressedReadPos compressedReadSize)

/-- inflate writing into a 2048-byte output buffer (next_out = outPtr when
frameSize equals the block size): the written bytes land at the front. -/
def writeOut (out : Nat → Nat) (o : List Nat) : Nat → Nat :=
  fun i => if i < o.length ∧ i < 2048 then o.getD i 0 else out i

/-- CISOFileBlockDevice::ReadBlock.  blockNumber is a non-negative int
(< 2^31), so its cast to u32 is itself. -/
def cisoReadBlock (d : CisoDev) (z : Inflater) (blockNumber : Nat) (out : Nat → Nat) : CisoResult :=
  if d.numBlocks ≤ blockNumber then
    { dev := d, ok := false, out := memset0 out, inflateCalls := 0 }
  else
    let frameNumber := blockNumber >>> d.blockShift
    let idx := d.index frameNumber
    let indexPos := idx % 2 ^ 31
    let compressedReadPos := indexPos <<< d.indexShift % 2 ^ 64
    let compressedOffset := blockNumber % 2 ^ d.blockShift * 2048
    if idx.testBit 31 then
      -- stored-uncompressed frame: read the sector directly, zero-pad a short read
      let pos := compressedReadPos + compressedOffset
      let readSize := freadLen d.file pos 2048
      { dev := d, ok := true,
        out := fun i => if i < readSize then d.file.byte (pos + i)
                        else if i < 2048 then 0 else out i,
        inflateCalls := 0 }
    else if d.zlibBufferFrame = frameNumber then
      -- frame cache hit: copy the slice out
      { dev := d, ok := true,
        out := fun i => if i < 2048 then d.zlibBuffer (compressedOffset + i) else out i,
        inflateCalls := 0 }
    else
      if z.initOk = false then
        -- inflateInit2 failed: return false with the buffer untouched
        { dev := d, ok := false, out := out, inflateCalls := 0 }
      else
        let r := z.run (cisoCompressedInput d frameNumber)
        let o := r.2
        -- next_out is outPtr when frameSize = 2048, zlibBuffer otherwise
        let d1 := if d.frameSize = 2048 then d
                  else { d with zlibBuffer := overlay d.zlibBuffer o }
        let outW := if d.frameSize = 2048 then writeOut out o else out
        if r.1 = false then
          { dev := d1, ok := false, out := memset0 outW, inflateCalls := 1 }
        else if o.length ≠ d.frameSize then
          { dev := d1, ok := false, out := memset0 outW, inflateCalls := 1 }
        else if d.frameSize = 2048 then
          { dev := d1, ok := true, out := outW, inflateCalls := 1 }
        else
          { dev := { d1 with zlibBufferFrame := frameNumber }, ok := true,
            out := fun i => if i < 2048 then overlay d.zlibBuffer o (compressedOffset + i)
                            else out i,
            inflateCalls := 1 }

/-- Claim C6: for the CISO device, read_block with any blockNumber at or past
block_count zero-fills the whole 2048-byte output buffer and returns failure. -/
theorem ciso_out_of_range (d : CisoDev) (z : Inflater) (bn : Nat) (out : Nat → Nat)
    (h : d.numBlocks ≤ bn) :
    (cisoReadBlock d z bn out).ok = false ∧
      ∀ i, i < 2048 → (cisoReadBlock d z bn out).out i = 0 := by
  rw [cisoReadBlock, if_pos h]
  exact ⟨rfl, fun i hi => by simp [memset0, hi]⟩

/-- Claim C6 witness: a concrete CISO device with 4 blocks, read at block 4. -/
theorem ciso_out_of_range_witness :
    (4 : Nat) ≤ 4 ∧
      ((cisoReadBlock ⟨2048, 0, 0, 4, 4, fun _ => 0, 4, fun _ => 0, ⟨8192, fun _ => 7⟩⟩
          ⟨true, fun l => (true, l)⟩ 4 (fun _ => 9)).ok = false ∧
        ∀ i, i < 2048 →
          (cisoReadBlock ⟨2048, 0, 0, 4, 4, fun _ => 0, 4, fun _ => 0, ⟨8192, fun _ => 7⟩⟩
            ⟨true, fun l => (true, l)⟩ 4 (fun _ => 9)).out i = 0) :=
  ⟨le_refl 4,
    ciso_out_of_range ⟨2048, 0, 0, 4, 4, fun _ => 0, 4, fun _ => 0, ⟨8192, fun _ => 7⟩⟩
      ⟨true, fun l => (true, l)⟩ 4 (fun _ => 9) (le_refl 4)⟩

/-- Claim C10: for the CISO device, a read whose frame is stored uncompressed
(top bit of the index entry set) leaves the frame cache unchanged: the cached
frame number and the cached decompressed bytes are identical before and after
the call. -/
theorem ciso_plain_read_keeps_cache (d : CisoDev) (z : Inflater) (bn : Nat)
    (out : Nat → Nat) (hin : bn < d.numBlocks)
    (hplain : (d.index (bn >>> d.blockShift)).testBit 31 = true) :
    (cisoReadBlock d z bn out).dev.zlibBufferFrame = d.zlibBufferFrame ∧
      ∀ i, (cisoReadBlock d z bn out).dev.zlibBuffer i = d.zlibBuffer i := by
  have h1 : ¬ d.numBlocks ≤ bn := not_le.mpr hin
  simp [cisoReadBlock, h1, hplain]

/-- Claim C10 witness: a concrete device whose only frame is stored
uncompressed, read at block 0; the cache slot is untouched. -/
theorem ciso_plain_read_keeps_cache_witness :
    ((0 : Nat) < 4 ∧
        ((2147483648 : Nat).testBit 31 = true)) ∧
      ((cisoReadBlock ⟨2048, 0, 0, 4, 4, fun _ => 2147483648, 4, fun _ => 3, ⟨8192, fun _ => 7⟩⟩
          ⟨true, fun l => (true, l)⟩ 0 (fun _ => 9)).dev.zlibBufferFrame = 4 ∧
        ∀ i,
          (cisoReadBlock ⟨2048, 0, 0, 4, 4, fun _ => 2147483648, 4, fun _ => 3, ⟨8192, fun _ => 7⟩⟩
            ⟨true, fun l => (true, l)⟩ 0 (fun _ => 9)).dev.zlibBuffer i = 3) :=
  ⟨⟨by decide, by decide⟩,
    ciso_plain_read_keeps_cache
      ⟨2048, 0, 0, 4, 4, fun _ => 2147483648, 4, fun _ => 3, ⟨8192, fun _ => 7⟩⟩
      ⟨true, fun l => (true, l)⟩ 0 (fun _ => 9) (by decide) (by decide)⟩

/-- Claim C1 (amended): for the CISO device, whenever the decompressor
initializes successfully, every read_block call fully writes the 2048-byte
output buffer before returning, regardless of the boolean result: the
resulting buffer contents do not depend on the prior buffer contents. -/
theorem ciso_read_block_fully_written (d : CisoDev) (z : Inflater) (bn : Nat)
    (out1 out2 : Nat → Nat) (hz : z.initOk = true) :
    ∀ i, i < 2048 →
      (cisoReadBlock d z bn out1).out i = (cisoReadBlock d z bn out2).out i := by
  intro i hi
  by_cases h1 : d.numBlocks ≤ bn
  · simp [cisoReadBlock, h1, memset0, hi]
  · by_cases h2 : (d.index (bn >>> d.blockShift)).testBit 31
    · simp [cisoReadBlock, h1, h2, hi]
    · by_cases h3 : d.zlibBufferFrame = bn >>> d.blockShift
      · simp [cisoReadBlock, h1, h2, h3, hi]
      · rcases hb : z.run (cisoCompressedInput d (bn >>> d.blockShift)) with ⟨st, o⟩
        cases st
        · simp [cisoReadBlock, h1, h2, h3, hz, hb, memset0, hi]
        · by_cases h5 : o.length = d.frameSize
          · by_cases h6 : d.frameSize = 2048
            · simp [cisoReadBlock, h1, h2, h3, hz, hb, h5, h6, writeOut, hi]
            · simp [cisoReadBlock, h1, h2, h3, hz, hb, h5, h6, hi]
          · simp [cisoReadBlock, h1, h2, h3, hz, hb, h5, memset0, hi]

/-- Claim C1 witness: a concrete CISO device and inflater with successful
initialization; the resulting buffer bytes agree for two different prior
buffer contents. -/
theorem ciso_read_block_fully_written_witness :
    (Inflater.mk true (fun l => (true, l))).initOk = true ∧
      ∀ i, i < 2048 →
        (cisoReadBlock ⟨2048, 0, 0, 4, 4, fun _ => 0, 4, fun _ => 0, ⟨8192, fun _ => 7⟩⟩
            (Inflater.mk true (fun l => (true, l))) 1 (fun _ => 5)).out i =
          (cisoReadBlock ⟨2048, 0, 0, 4, 4, fun _ => 0, 4, fun _ => 0, ⟨8192, fun _ => 7⟩⟩
            (Inflater.mk true (fun l => (true, l))) 1 (fun _ => 9)).out i :=
  ⟨rfl,
    ciso_read_block_fully_written ⟨2048, 0, 0, 4, 4, fun _ => 0, 4, fun _ => 0, ⟨8192, fun _ => 7⟩⟩
      (Inflater.mk true (fun l => (true, l))) 1 (fun _ => 5) (fun _ => 9) rfl⟩

/-
NPDRM demo device (NPDRMDemoBlockDevice).

State after construction: the geometry parsed from the decrypted inner
header (blockLBAs, blockSize = blockLBAs * 2048, numBlocks = number of
storage units), the descrambled table, the unit-cache key currentBlock
(an int, set to -1 by the constructor) and the unit buffer blockBuf (a freshly
allocated, uninitialized heap buffer, modelled as an arbitrary function).
The derived keys live only inside the cipher oracle.  The scratch tempBuf
only carries bytes into the cipher and the LZRC decompressor, so it is not
part of the state.
-/
structure NpdrmDev where
  blockLBAs : Nat
  blockSize : Nat
  numBlocks : Nat
  table : Nat → RawEntry
  currentBlock : Int
  blockBuf : Nat → Nat
  psarOffset : Nat
  file : FileRes

/-- The external DRM primitives the read path calls out to: cipher models
sceDrmBBCipher decrypting a byte string in place given the IV seed
(offset >>> 4); lzrc models lzrc_decompress, returning the bytes it wrote
(so the returned lzsize is the length of the list). -/
structure NpdrmOracles where
  cipher : Nat → List Nat → List Nat
  lzrc : List Nat → List Nat

/-- Result of one NPDRMDemoBlockDevice::ReadBlock call. -/
structure NpdrmResult where
  dev : NpdrmDev
  ok : Bool
  out : Nat → Nat

/-- NPDRMDemoBlockDevice::ReadBlock.  blockNumber is a non-negative int.
The u32 comparison (u32)block == numBlocks - 1 is modelled with explicit
reductions modulo 2^32 = 4294967296 (so numBlocks - 1 wraps when
numBlocks = 0, as the u32 subtraction does). -/
def npdrmReadBlock (d : NpdrmDev) (o : NpdrmOracles) (blockNumber : Nat)
    (out : Nat → Nat) : NpdrmResult :=
  let lbaInt : Int := (blockNumber : Int) - d.currentBlock
  if 0 ≤ lbaInt ∧ lbaInt < (d.blockLBAs : Int) then
    -- unit cache hit: copy the slice out of blockBuf
    { dev := d, ok := true,
      out := fun i => if i < 2048 then d.blockBuf (lbaInt.toNat * 2048 + i) else out i }
  else
    let block := blockNumber / d.blockLBAs
    let lba := blockNumber % d.blockLBAs
    let d1 : NpdrmDev := { d with currentBlock := ((block * d.blockLBAs : Nat) : Int) }
    if (d.table block).w7 ≠ 0 then
      -- sentinel entry (unk_1c != 0)
      if block % 4294967296 = (d.numBlocks + 4294967295) % 4294967296 then
        { dev := d1, ok := true, out := out }
      else
        { dev := d1, ok := false, out := out }
    else
      let pos := d.psarOffset + (d.table block).w0
      let want := (d.table block).w1
      let got := freadLen d.file pos want
      let raw := readBytes d.file pos got
      -- fread targets tempBuf when size < blockSize, blockBuf otherwise
      let d2 : NpdrmDev := if want < d.blockSize then d1
                           else { d1 with blockBuf := overlay d1.blockBuf raw }
      if got ≠ want then
        -- short unit read
        if block % 4294967296 = (d.numBlocks + 4294967295) % 4294967296 then
          { dev := d2, ok := true, out := out }
        else
          { dev := d2, ok := false, out := out }
      else
        -- the MAC check implied by bit 0 of flag is skipped by the source
        -- bit 2 of flag clear: decrypt the read bytes in place
        let data := if (d.table block).w2.testBit 2 then raw
                    else o.cipher ((d.table block).w0 >>> 4) raw
        let d3 : NpdrmDev := if want < d.blockSize then d2
                             else { d2 with blockBuf := overlay d1.blockBuf data }
        if want < d.blockSize then
          let lz := o.lzrc data
          let d4 : NpdrmDev := { d3 with blockBuf := overlay d3.blockBuf lz }
          if lz.length ≠ d.blockSize then
            { dev := d4, ok := false, out := out }
          else
            { dev := d4, ok := true,
              out := fun i => if i < 2048 then d4.blockBuf (lba * 2048 + i) else out i }
        else
          { dev := d3, ok := true,
            out := fun i => if i < 2048 then d3.blockBuf (lba * 2048 + i) else out i }

/-- Claim C3: on a freshly constructed NPDRM device the constructor sets
currentBlock = -1, but the cache-hit test lba = blockNumber - currentBlock,
0 <= lba < blockLBAs then accepts lba = blockNumber + 1 for every
blockNumber <= blockLBAs - 2.  Evaluated at the failing input: a fresh device
with blockLBAs = 16 and an all-sentinel table (so any fetch of unit 0 would
return failure) answers read_block(0) with success, serving bytes from the
uninitialized unit buffer at offset 2048 -- the cache-hit path was taken. -/
theorem npdrm_fresh_cache_hit_bug :
    (npdrmReadBlock
        ⟨16, 32768, 4, fun _ => ⟨0, 0, 0, 0, 0, 0, 0, 1⟩, -1, fun i => i, 0, ⟨0, fun _ => 0⟩⟩
        ⟨fun _ l => l, fun _ => []⟩ 0 (fun _ => 9)).ok = true ∧
      (npdrmReadBlock
          ⟨16, 32768, 4, fun _ => ⟨0, 0, 0, 0, 0, 0, 0, 1⟩, -1, fun i => i, 0, ⟨0, fun _ => 0⟩⟩
          ⟨fun _ l => l, fun _ => []⟩ 0 (fun _ => 9)).out 0 = 2048 := by
  constructor <;> rfl

/-- Claim C4: read_block sets currentBlock = block * blockLBAs before the
fetch, so a failing fetch leaves the unit cache validated for that unit.
Evaluated at the failing input: fresh device with blockLBAs = 2, two units,
unit 0 a sentinel entry; read_block(1) returns failure, and repeating
read_block(1) immediately afterwards returns success from the unit cache
instead of fetching again. -/
theorem npdrm_failed_fetch_cache_poison_bug :
    (npdrmReadBlock
        ⟨2, 4096, 2, fun _ => ⟨0, 0, 0, 0, 0, 0, 0, 1⟩, -1, fun _ => 5, 0, ⟨0, fun _ => 0⟩⟩
        ⟨fun _ l => l, fun _ => []⟩ 1 (fun _ => 9)).ok = false ∧
      (npdrmReadBlock
          (npdrmReadBlock
              ⟨2, 4096, 2, fun _ => ⟨0, 0, 0, 0, 0, 0, 0, 1⟩, -1, fun _ => 5, 0, ⟨0, fun _ => 0⟩⟩
              ⟨fun _ l => l, fun _ => []⟩ 1 (fun _ => 9)).dev
          ⟨fun _ l => l, fun _ => []⟩ 1 (fun _ => 9)).ok = true := by
  constructor <;> rfl

/-- Claim C1 counterexample: an NPDRM read of a sentinel, non-final unit
returns failure and leaves the output buffer exactly as it was, so the
buffer after a failing read still depends on its prior contents -- it is not
fully written. -/
theorem read_block_fully_written_cex :
    (npdrmReadBlock
        ⟨2, 4096, 2, fun _ => ⟨0, 0, 0, 0, 0, 0, 0, 1⟩, -1, fun _ => 5, 0, ⟨0, fun _ => 0⟩⟩
        ⟨fun _ l => l, fun _ => []⟩ 1 (fun _ => 7)).ok = false ∧
      (npdrmReadBlock
          ⟨2, 4096, 2, fun _ => ⟨0, 0, 0, 0, 0, 0, 0, 1⟩, -1, fun _ => 5, 0, ⟨0, fun _ => 0⟩⟩
          ⟨fun _ l => l, fun _ => []⟩ 1 (fun _ => 7)).out 0 = 7 ∧
      (npdrmReadBlock
          ⟨2, 4096, 2, fun _ => ⟨0, 0, 0, 0, 0, 0, 0, 1⟩, -1, fun _ => 5, 0, ⟨0, fun _ => 0⟩⟩
          ⟨fun _ l => l, fun _ => []⟩ 1 (fun _ => 0)).out 0 = 0 := by
  refine ⟨rfl, rfl, rfl⟩

/-- Claim C5 counterexample: on a fresh NPDRM device with blockLBAs = 2 whose
unit 0 is a sentinel entry (unk != 0) and not the final unit, read_block(0)
returns success (served by the bogus initial cache hit), although the claim
requires failure for every block of a non-final sentinel unit. -/
theorem npdrm_sentinel_cache_hit_cex :
    ((fun _ : Nat => RawEntry.mk 0 0 0 0 0 0 0 1) (0 / 2)).w7 ≠ 0 ∧
      (0 / 2 ≠ 2 - 1) ∧
      (npdrmReadBlock
          ⟨2, 4096, 2, fun _ => ⟨0, 0, 0, 0, 0, 0, 0, 1⟩, -1, fun _ => 5, 0, ⟨0, fun _ => 0⟩⟩
          ⟨fun _ l => l, fun _ => []⟩ 0 (fun _ => 9)).ok = true := by
  refine ⟨by decide, by decide, rfl⟩

/-- Claim C5 (amended): for the NPDRM device, provided the requested block is
not served by the unit cache (blockNumber - currentBlock outside
[0, blockLBAs)), a read of a block whose unit has a sentinel table entry
(unk != 0) returns success when the unit is the last one (numBlocks - 1),
leaving the output buffer untouched, and returns failure for every non-final
unit. -/
theorem npdrm_sentinel_last_unit (d : NpdrmDev) (o : NpdrmOracles) (bn : Nat)
    (out : Nat → Nat)
    (hnb : 0 < d.numBlocks) (hnb32 : d.numBlocks < 4294967296)
    (hbn : bn < 2147483648)
    (hmiss : ¬ (0 ≤ (bn : Int) - d.currentBlock ∧
        (bn : Int) - d.currentBlock < (d.blockLBAs : Int)))
    (hsent : (d.table (bn / d.blockLBAs)).w7 ≠ 0) :
    (bn / d.blockLBAs = d.numBlocks - 1 →
        (npdrmReadBlock d o bn out).ok = true ∧ (npdrmReadBlock d o bn out).out = out) ∧
      (bn / d.blockLBAs ≠ d.numBlocks - 1 → (npdrmReadBlock d o bn out).ok = false) := by
  have hcondAll : ∀ X : Nat, X ≤ bn →
      (X % 4294967296 = (d.numBlocks + 4294967295) % 4294967296 ↔ X = d.numBlocks - 1) := by
    intro X hX
    omega
  have hcond := hcondAll (bn / d.blockLBAs) (Nat.div_le_self bn d.blockLBAs)
  constructor
  · intro hlast
    have hc := hcond.mpr hlast
    constructor
    · simp only [npdrmReadBlock]
      rw [if_neg hmiss, if_pos hsent, if_pos hc]
    · simp only [npdrmReadBlock]
      rw [if_neg hmiss, if_pos hsent, if_pos hc]
  · intro hne
    have hc : ¬ bn / d.blockLBAs % 4294967296 = (d.numBlocks + 4294967295) % 4294967296 :=
      fun h => hne (hcond.mp h)
    simp only [npdrmReadBlock]
    rw [if_neg hmiss, if_pos hsent, if_neg hc]

/-- Claim C5 witness: blockLBAs = 2, two units, unit 1 (the final one) a
sentinel entry; read_block(2) misses the cache and succeeds with the buffer
untouched. -/
theorem npdrm_sentinel_last_unit_witness :
    (npdrmReadBlock
        ⟨2, 4096, 2, fun _ => ⟨0, 0, 0, 0, 0, 0, 0, 1⟩, -1, fun _ => 5, 0, ⟨0, fun _ => 0⟩⟩
        ⟨fun _ l => l, fun _ => []⟩ 2 (fun _ => 9)).ok = true ∧
      (npdrmReadBlock
          ⟨2, 4096, 2, fun _ => ⟨0, 0, 0, 0, 0, 0, 0, 1⟩, -1, fun _ => 5, 0, ⟨0, fun _ => 0⟩⟩
          ⟨fun _ l => l, fun _ => []⟩ 2 (fun _ => 9)).out = (fun _ => 9) :=
  (npdrm_sentinel_last_unit
      ⟨2, 4096, 2, fun _ => ⟨0, 0, 0, 0, 0, 0, 0, 1⟩, -1, fun _ => 5, 0, ⟨0, fun _ => 0⟩⟩
      ⟨fun _ l => l, fun _ => []⟩ 2 (fun _ => 9)
      (by decide) (by decide) (by decide) (by decide) (by decide)).1 (by decide)

/-- Read a sequence of blocks through one CISO device, threading the device
state and the output buffer, and collect the per-call inflater invocation
counts. -/
def cisoRunSeq (z : Inflater) : CisoDev → (Nat → Nat) → List Nat → CisoDev × ((Nat → Nat) × List Nat)
  | d, out, [] => (d, out, [])
  | d, out, bn :: rest =>
    let r := cisoReadBlock d z bn out
    let t := cisoRunSeq z r.dev r.out rest
    (t.1, t.2.1, r.inflateCalls :: t.2.2)

/-- An in-range read of a compressed frame that is already cached copies the
slice out of the frame cache without touching the inflater or the state. -/
theorem ciso_read_hit (d : CisoDev) (z : Inflater) (bn fn : Nat) (out : Nat → Nat)
    (hfn : bn >>> d.blockShift = fn)
    (h1 : bn < d.numBlocks)
    (h2 : (d.index fn).testBit 31 = false)
    (h3 : d.zlibBufferFrame = fn) :
    cisoReadBlock d z bn out =
      { dev := d, ok := true,
        out := fun i => if i < 2048 then d.zlibBuffer (bn % 2 ^ d.blockShift * 2048 + i)
                        else out i,
        inflateCalls := 0 } := by
  subst hfn
  simp [cisoReadBlock, not_le.mpr h1, h2, h3]

/-- An in-range read of a compressed, uncached frame with a successful
decompression of the full frame (frame larger than one block) invokes the
inflater once, caches the frame and copies the slice out. -/
theorem ciso_read_miss_success (d : CisoDev) (z : Inflater) (bn fn : Nat)
    (out : Nat → Nat) (o : List Nat)
    (hfn : bn >>> d.blockShift = fn)
    (h1 : bn < d.numBlocks)
    (h2 : (d.index fn).testBit 31 = false)
    (h3 : d.zlibBufferFrame ≠ fn)
    (h4 : z.initOk = true)
    (h5 : z.run (cisoCompressedInput d fn) = (true, o))
    (h6 : o.length = d.frameSize)
    (h7 : d.frameSize ≠ 2048) :
    cisoReadBlock d z bn out =
      { dev := { d with zlibBufferFrame := fn, zlibBuffer := overlay d.zlibBuffer o },
        ok := true,
        out := fun i => if i < 2048 then overlay d.zlibBuffer o (bn % 2 ^ d.blockShift * 2048 + i)
                        else out i,
        inflateCalls := 1 } := by
  subst hfn
  simp [cisoReadBlock, not_le.mpr h1, h2, h3, h4, h5, h6, h7]

/-- Claim C7: for a CISO device with frame_size = 4 * 2048 (blockShift = 2),
reading blocks 0, 1, 2, 3 of compressed frame 0 in sequence invokes the
decompressor exactly once (on the first read; the three following reads are
served from the frame cache), and then reading block 4, which lies in the
different compressed frame 1, invokes it exactly once more. -/
theorem ciso_single_decompress_per_frame
    (ishift nf nb : Nat) (idx : Nat → Nat) (zf : Nat) (zb : Nat → Nat) (fl : FileRes)
    (z : Inflater) (o0 o1 : List Nat) (out : Nat → Nat)
    (hzf0 : zf ≠ 0)
    (hnb : 4 < nb)
    (hp0 : (idx 0).testBit 31 = false)
    (hp1 : (idx 1).testBit 31 = false)
    (hinit : z.initOk = true)
    (hrun0 : z.run (cisoCompressedInput ⟨8192, 2, ishift, nf, nb, idx, zf, zb, fl⟩ 0) = (true, o0))
    (hlen0 : o0.length = 8192)
    (hrun1 : z.run (cisoCompressedInput ⟨8192, 2, ishift, nf, nb, idx, zf, zb, fl⟩ 1) = (true, o1))
    (hlen1 : o1.length = 8192) :
    (cisoRunSeq z ⟨8192, 2, ishift, nf, nb, idx, zf, zb, fl⟩ out [0, 1, 2, 3, 4]).2.2 =
      [1, 0, 0, 0, 1] := by
  have hne : (8192 : Nat) ≠ 2048 := by decide
  have h0 := ciso_read_miss_success ⟨8192, 2, ishift, nf, nb, idx, zf, zb, fl⟩ z 0 0 out o0
    rfl (show (0 : Nat) < nb by omega) hp0 hzf0 hinit hrun0 hlen0 hne
  have h1r := fun outA => ciso_read_hit ⟨8192, 2, ishift, nf, nb, idx, 0, overlay zb o0, fl⟩
    z 1 0 outA rfl (show (1 : Nat) < nb by omega) hp0 rfl
  have h2r := fun outA => ciso_read_hit ⟨8192, 2, ishift, nf, nb, idx, 0, overlay zb o0, fl⟩
    z 2 0 outA rfl (show (2 : Nat) < nb by omega) hp0 rfl
  have h3r := fun outA => ciso_read_hit ⟨8192, 2, ishift, nf, nb, idx, 0, overlay zb o0, fl⟩
    z 3 0 outA rfl (show (3 : Nat) < nb by omega) hp0 rfl
  have h4r := fun outA => ciso_read_miss_success ⟨8192, 2, ishift, nf, nb, idx, 0, overlay zb o0, fl⟩
    z 4 1 outA o1 rfl (show (4 : Nat) < nb by omega) hp1 (by exact Nat.zero_ne_one) hinit hrun1
    hlen1 hne
  simp only [cisoRunSeq, h0, h1r, h2r, h3r, h4r]

/-- Claim C7 witness: a concrete device with frame size 8192 and an inflater
that always succeeds with a full 8192-byte frame; the five reads perform
exactly one decompression for frame 0 and one more for frame 1. -/
theorem ciso_single_decompress_per_frame_witness :
    (cisoRunSeq ⟨true, fun _ => (true, List.replicate 8192 0)⟩
        ⟨8192, 2, 0, 2, 32, fun _ => 0, 5, fun _ => 0, ⟨0, fun _ => 0⟩⟩ (fun _ => 0)
        [0, 1, 2, 3, 4]).2.2 = [1, 0, 0, 0, 1] :=
  ciso_single_decompress_per_frame 0 2 32 (fun _ => 0) 5 (fun _ => 0) ⟨0, fun _ => 0⟩
    ⟨true, fun _ => (true, List.replicate 8192 0)⟩ (List.replicate 8192 0)
    (List.replicate 8192 0) (fun _ => 0)
    (by decide) (by decide) (by decide) (by decide) rfl rfl (List.length_replicate 8192 0) rfl
    (List.length_replicate 8192 0)

/-
Plain pass-through device (FileBlockDevice).

The device owns the file; the constructor records the file size.  ReadBlock
seeks to blockNumber * 2048 and freads 2048 bytes into the caller buffer; a
short read is only logged, and the call always returns true.
-/
structure FileBlockDev where
  file : FileRes

/-- Modelled from the spec: GetNumBlocks of FileBlockDevice is declared in
BlockDevices.h, which is not part of the given sources.  The spec says the
block count is derived from the image metadata, and the plain device maps
block N to byte offset N * 2048 of the resource, so the count is the file
size divided by the 2048-byte block size. -/
def fileNumBlocks (d : FileBlockDev) : Nat :=
  d.file.size / 2048

/-- FileBlockDevice::ReadBlock: fread 2048 bytes at offset
blockNumber * 2048; only the bytes the resource provides are written to the
output buffer; the result is unconditionally true. -/
def fileReadBlock (d : FileBlockDev) (blockNumber : Nat) (out : Nat → Nat) :
    Bool × (Nat → Nat) :=
  let pos := blockNumber * 2048
  let readSize := freadLen d.file pos 2048
  (true, fun i => if i < readSize then d.file.byte (pos + i) else out i)

/-- Claim C8: for the plain device and any n < block_count, read_block(n)
writes into the output buffer exactly the 2048 bytes at byte offset n * 2048
of the underlying resource, and returns success. -/
theorem file_read_block_spec (d : FileBlockDev) (n : Nat) (out : Nat → Nat)
    (h : n < fileNumBlocks d) :
    (fileReadBlock d n out).1 = true ∧
      ∀ i, i < 2048 → (fileReadBlock d n out).2 i = d.file.byte (n * 2048 + i) := by
  unfold fileNumBlocks at h
  have hsize : n * 2048 + 2048 ≤ d.file.size := by
    have h1 : (n + 1) * 2048 ≤ d.file.size / 2048 * 2048 := Nat.mul_le_mul_right 2048 h
    have h2 : d.file.size / 2048 * 2048 ≤ d.file.size := Nat.div_mul_le_self _ _
    omega
  refine ⟨rfl, fun i hi => ?_⟩
  have hrs : freadLen d.file (n * 2048) 2048 = 2048 := by
    unfold freadLen
    omega
  simp [fileReadBlock, hrs, hi]

/-- Claim C8 witness: a 4100-byte resource has 2 full blocks; reading block 1
returns success and the bytes at offsets 2048 .. 4095. -/
theorem file_read_block_spec_witness :
    (1 : Nat) < fileNumBlocks ⟨⟨4100, fun i => i + 3⟩⟩ ∧
      ((fileReadBlock ⟨⟨4100, fun i => i + 3⟩⟩ 1 (fun _ => 9)).1 = true ∧
        ∀ i, i < 2048 →
          (fileReadBlock ⟨⟨4100, fun i => i + 3⟩⟩ 1 (fun _ => 9)).2 i = 1 * 2048 + i + 3) :=
  ⟨by decide,
    file_read_block_spec ⟨⟨4100, fun i => i + 3⟩⟩ 1 (fun _ => 9) (by decide)⟩

/-
Format sniffer / factory (constructBlockDevice).

The factory opens the resource (an open failure yields no device), freads the
first 4 bytes, rewinds, and picks the device from the magic.  The fread size
guard means a resource shorter than 4 bytes always falls through to the plain
device.
-/
inductive DeviceKind where
  | ciso
  | npdrm
  | plain
deriving DecidableEq

/-- The 4 magic bytes of a CISO container. -/
def cisoMagic : List Nat := [67, 73, 83, 79]

/-- The 4 magic bytes of a PBP container, 0x00 then PBP. -/
def pbpMagic : List Nat := [0, 80, 66, 80]

/-- constructBlockDevice: none stands for a resource that could not be
opened.  size is the number of bytes the 4-byte fread returned; memcmp on
the partially filled buffer is only consulted when size == 4. -/
def constructBlockDevice (res : Option FileRes) : Option DeviceKind :=
  match res with
  | none => none
  | some f =>
    let size := min 4 f.size
    let buffer := readBytes f 0 size
    if buffer = cisoMagic ∧ size = 4 then some DeviceKind.ciso
    else if buffer = pbpMagic ∧ size = 4 then some DeviceKind.npdrm
    else some DeviceKind.plain

/-- The device selection as the claim words it: the first 4 bytes equal to
CISO yield the CISO device, equal to 0,P,B,P yield the NPDRM device, any
other first 4 bytes yield the plain device, and an unopenable resource
yields no device. -/
def sniffSpec (res : Option FileRes) : Option DeviceKind :=
  match res with
  | none => none
  | some f =>
    if 4 ≤ f.size ∧ readBytes f 0 4 = cisoMagic then some DeviceKind.ciso
    else if 4 ≤ f.size ∧ readBytes f 0 4 = pbpMagic then some DeviceKind.npdrm
    else some DeviceKind.plain

/-- Claim C9: the factory inspects the first 4 bytes and selects the device
deterministically, exactly as the claim describes: CISO magic gives the CISO
device, the 0,P,B,P magic gives the NPDRM device, anything else gives the
plain device, and no device is produced when the resource cannot be opened. -/
theorem construct_block_device_sniff (res : Option FileRes) :
    constructBlockDevice res = sniffSpec res := by
  rcases res with _ | f
  · rfl
  · by_cases hs : 4 ≤ f.size
    · have hmin : min 4 f.size = 4 := min_eq_left hs
      simp [constructBlockDevice, sniffSpec, hmin, hs, and_comm]
    · have hne : min 4 f.size ≠ 4 := by omega
      simp [constructBlockDevice, sniffSpec, hne, hs]
